import Mathlib

/-!
Verification of the constraint-filtering engine, depth interpolation,
comparison metrics, spatial matching and storer operations of the
bgc_data_processing package, shallowly embedded in Lean 4.

Conventions of the embedding:
* pandas DataFrames are lists of (index, row) pairs; a row is an association
  list from column labels to rational values (floats are modelled by ℚ;
  a possibly-NaN float is modelled by Option ℚ with none standing for NaN
  where NaN matters).
* shapely Polygons (an external geometry library) are modelled by their
  containment predicate, a function from (x, y) to Bool.
* Python dicts keyed by strings are association lists looked up by key.
-/

namespace BGC

/-- Row of a dataframe: association list from column label to value.
Cell access mirrors pandas column lookup; a well-formed access always
finds the label. -/
abbrev Row := List (String × ℚ)

/-- Dataframe: list of (index, row) pairs. The index values are kept by
slicing operations, exactly as pandas .loc does. -/
abbrev DataFrame := List (Nat × Row)

/-- Value of a row at a column label (df[label] for one row). -/
def Row.cell (r : Row) (label : String) : ℚ :=
  (r.lookup label).getD 0

/-- Polygon constraint entry of Constraints.polygons: the latitude field
name, the longitude field name and the polygon, modelled by its
containment predicate taking x = longitude, y = latitude
(gpd.points_from_xy(x=df[longitude], y=df[latitude]).within(polygon)). -/
structure PolygonEntry where
  latitude_field : String
  longitude_field : String
  polygon : ℚ → ℚ → Bool

/-- State of a filtering.Constraints object.

The boundaries dict maps a field label to its (min, max) bounds, where
none models the np.nan sentinel (open-ended bound).
The supersets dict maps a field label to the list of allowed values.
The polygons list holds the registered polygon constraints.
The unused self.constraints dict of the Python class (never read by any
method) is not modelled. -/
structure Constraints where
  boundaries : List (String × Option ℚ × Option ℚ)
  supersets : List (String × List ℚ)
  polygons : List PolygonEntry

/-- Constraints() constructor: no constraint registered. -/
def Constraints.empty : Constraints := ⟨[], [], []⟩

/-- Constraints.reset: clears boundaries and supersets (and the unused
constraints dict) but does not touch polygons. -/
def Constraints.reset (c : Constraints) : Constraints :=
  { boundaries := [], supersets := [], polygons := c.polygons }

/-- Constraints.add_boundary_constraint: no-op when both bounds are NaN,
otherwise stores the (min, max) pair for the field. -/
def Constraints.add_boundary_constraint (c : Constraints) (field_label : String)
    (minimal_value maximal_value : Option ℚ) : Constraints :=
  if minimal_value.isNone && maximal_value.isNone then c
  else { c with boundaries := c.boundaries ++ [(field_label, minimal_value, maximal_value)] }

/-- Constraints.add_superset_constraint: no-op when the value list is
empty, otherwise stores the list for the field. -/
def Constraints.add_superset_constraint (c : Constraints) (field_label : String)
    (values_superset : List ℚ) : Constraints :=
  if values_superset.isEmpty then c
  else { c with supersets := c.supersets ++ [(field_label, values_superset)] }

/-- Constraints.add_polygon_constraint: appends the polygon entry. -/
def Constraints.add_polygon_constraint (c : Constraints) (latitude_field : String)
    (longitude_field : String) (polygon : ℚ → ℚ → Bool) : Constraints :=
  { c with polygons := c.polygons ++ [⟨latitude_field, longitude_field, polygon⟩] }

/-- Boolean evaluation of one boundary dict entry on one row, mirroring
the branches of Constraints._apply_boundary_constraints: both bounds NaN
means the entry is skipped (contributes True), one NaN bound leaves that
side open, otherwise both inclusive comparisons are required. -/
def boundaryBool (bounds : Option ℚ × Option ℚ) (v : ℚ) : Bool :=
  match bounds with
  | (none, none) => true
  | (some mn, none) => mn ≤ v
  | (none, some mx) => v ≤ mx
  | (some mn, some mx) => decide (mn ≤ v) && decide (v ≤ mx)

/-- Boolean evaluation of one superset dict entry on one row:
label_series.isin(value_set). -/
def supersetBool (values : List ℚ) (v : ℚ) : Bool :=
  values.contains v

/-- Boolean evaluation of one polygon entry on one row: the point
(x = longitude cell, y = latitude cell) lies within the polygon. -/
def polygonBool (p : PolygonEntry) (r : Row) : Bool :=
  p.polygon (r.cell p.longitude_field) (r.cell p.latitude_field)

/-- Constraints._apply_boundary_constraints: a boolean series starting
all True, AND-ed with the series of each registered boundary constraint. -/
def Constraints.apply_boundary_constraints (c : Constraints) (df : DataFrame) : List Bool :=
  c.boundaries.foldl
    (fun series entry =>
      List.zipWith (fun a b => a && b) series
        (df.map (fun r => boundaryBool entry.2 (r.2.cell entry.1))))
    (df.map (fun _ => true))

/-- Constraints._apply_superset_constraints: a boolean series starting
all True, AND-ed with the isin series of each registered superset
constraint. Constraints.add_superset_constraint never stores an empty
value list, so the dead branch of the Python loop guarded by
`if value_set:` (which would reuse a stale series) is not modelled; the
theorems about this function only cover states whose stored superset
lists are non-empty. -/
def Constraints.apply_superset_constraints (c : Constraints) (df : DataFrame) : List Bool :=
  c.supersets.foldl
    (fun series entry =>
      List.zipWith (fun a b => a && b) series
        (df.map (fun r => supersetBool entry.2 (r.2.cell entry.1))))
    (df.map (fun _ => true))

/-- Constraints._apply_polygon_constraints: a boolean series starting
all True, AND-ed with the within series of each registered polygon. -/
def Constraints.apply_polygon_constraints (c : Constraints) (df : DataFrame) : List Bool :=
  c.polygons.foldl
    (fun series entry =>
      List.zipWith (fun a b => a && b) series
        (df.map (fun r => polygonBool entry r.2)))
    (df.map (fun _ => true))

/-- Boolean-mask slicing df.loc[mask, :]: keep the rows whose mask entry
is True, preserving their (index, row) pairs. -/
def locBool (df : DataFrame) (mask : List Bool) : DataFrame :=
  (df.zip mask).filterMap (fun p => if p.2 then some p.1 else none)

/-- Constraints.apply_constraints_to_dataframe: AND of the three boolean
series, then boolean slicing that conserves index values. -/
def Constraints.apply_constraints_to_dataframe (c : Constraints) (df : DataFrame) : DataFrame :=
  let bool_boundaries := c.apply_boundary_constraints df
  let bool_supersets := c.apply_superset_constraints df
  let bool_polygons := c.apply_polygon_constraints df
  let verify_all :=
    List.zipWith (fun a b => a && b)
      (List.zipWith (fun a b => a && b) bool_boundaries bool_supersets) bool_polygons
  locBool df verify_all

/-- Row-level predicate: the row satisfies every registered boundary,
superset and polygon constraint (each predicate evaluated individually). -/
def Constraints.rowPasses (c : Constraints) (r : Row) : Bool :=
  c.boundaries.all (fun entry => boundaryBool entry.2 (r.cell entry.1))
    && c.supersets.all (fun entry => supersetBool entry.2 (r.cell entry.1))
    && c.polygons.all (fun entry => polygonBool entry r)

/-- Constraints.apply_specific_constraint: builds a fresh Constraints,
re-adds the field's boundary constraint if any, then — if the field has a
superset constraint — calls add_superset_constraint with the misspelled
keyword argument value_superset (the parameter is named values_superset),
which raises a TypeError; otherwise applies the fresh constraints. -/
def Constraints.apply_specific_constraint (c : Constraints) (field_label : String)
    (df : DataFrame) : Except String DataFrame :=
  let fresh := Constraints.empty
  let withBoundary :=
    match c.boundaries.lookup field_label with
    | some bounds => fresh.add_boundary_constraint field_label bounds.1 bounds.2
    | none => fresh
  match c.supersets.lookup field_label with
  | some _ =>
      Except.error "TypeError: add_superset_constraint got an unexpected keyword argument value_superset"
  | none => Except.ok (withBoundary.apply_constraints_to_dataframe df)

/-- Constraints.is_constrained: the field appears in boundaries or in
supersets. -/
def Constraints.is_constrained (c : Constraints) (field_name : String) : Bool :=
  (c.boundaries.lookup field_name).isSome || (c.supersets.lookup field_name).isSome

/-- Minimum of a Python list through min(list): none on an empty list
(where Python would raise). -/
def listMin : List ℚ → Option ℚ
  | [] => none
  | x :: xs => some (xs.foldl min x)

/-- Maximum of a Python list through max(list): none on an empty list
(where Python would raise). -/
def listMax : List ℚ → Option ℚ
  | [] => none
  | x :: xs => some (xs.foldl max x)

/-- Python two-argument min(a, b) where a may be NaN (none): CPython
keeps the first argument unless the second compares strictly smaller, so
min(nan, b) is nan. -/
def pyMinNan (a : Option ℚ) (b : ℚ) : Option ℚ :=
  match a with
  | none => none
  | some av => some (if b < av then b else av)

/-- Python two-argument max(a, b) where a may be NaN (none): CPython
keeps the first argument unless the second compares strictly greater, so
max(nan, b) is nan. -/
def pyMaxNan (a : Option ℚ) (b : ℚ) : Option ℚ :=
  match a with
  | none => none
  | some av => some (if av < b then b else av)

/-- Constraints.get_extremes: defaults when the field is unconstrained;
the boundary bounds when only a boundary constraint exists; min and max
of the superset when only a superset constraint exists; and when both
exist, min of the two minima and max of the two maxima. The case of a
stored empty superset list next to a boundary is unreachable
(add_superset_constraint never stores an empty list); there the Python
code would raise UnboundLocalError and the model returns (none, none). -/
def Constraints.get_extremes (c : Constraints) (field_name : String)
    (default_min default_max : Option ℚ) : Option ℚ × Option ℚ :=
  match c.boundaries.lookup field_name, c.supersets.lookup field_name with
  | none, none => (default_min, default_max)
  | some bounds, none => (bounds.1, bounds.2)
  | none, some vs => (listMin vs, listMax vs)
  | some bounds, some vs =>
      match listMin vs, listMax vs with
      | some s_min, some s_max => (pyMinNan bounds.1 s_min, pyMaxNan bounds.2 s_max)
      | _, _ => (none, none)

/-- Modelled from the spec for comparison with get_extremes: the
tightest [min, max] interval implied by the conjunction of the boundary
and superset constraints on a field — the values allowed by both are the
superset values lying within the bounds, so the tightest interval is
their minimum and maximum; with only one constraint registered it is
that constraint's own extent, and with none the defaults. -/
def Constraints.tightest_extremes (c : Constraints) (field_name : String)
    (default_min default_max : Option ℚ) : Option ℚ × Option ℚ :=
  match c.boundaries.lookup field_name, c.supersets.lookup field_name with
  | none, none => (default_min, default_max)
  | some bounds, none => (bounds.1, bounds.2)
  | none, some vs => (listMin vs, listMax vs)
  | some bounds, some vs =>
      let allowed := vs.filter (fun v => boundaryBool bounds v)
      (listMin allowed, listMax allowed)

/-!
Depth interpolation (comparison/interpolation.py). A vertical profile —
the slice of the simulation storer sharing one observation index — is a
non-empty list of rows; every profile row carries its depth (the x
column, a float, here ℚ), the values of the depth-interpolated columns
(those whose label is in the Interpolator's list of y columns, possibly
NaN, hence Option ℚ) and the values of the remaining, constant columns. The model
covers the pipeline shape where the slice is a pandas DataFrame
(repeated index, several depth levels); a single-level slice degrades to
a pandas Series and is outside the model. -/

/-- Row of a vertical profile: a depth value, the depth-interpolated
column values and the constant column values. -/
structure ProfileRow where
  depth : ℚ
  ys : List (Option ℚ)
  consts : List (Option ℚ)
  deriving DecidableEq, Repr

/-- Row produced by Interpolator.interpolate: like a profile row but the
depth field may be NaN (the NaN pass-through branch). -/
structure InterpolatedRow where
  depth : Option ℚ
  ys : List (Option ℚ)
  consts : List (Option ℚ)
  deriving DecidableEq, Repr

/-- Row at the first occurrence of the maximal depth
(ref_slice.iloc[ref_slice[x].argmax()]): np.argmax keeps the first
index attaining the maximum. -/
def maxDepthRow (r : ProfileRow) : List ProfileRow → ProfileRow
  | [] => r
  | s :: rest => if r.depth < s.depth then maxDepthRow s rest else maxDepthRow r rest

/-- Row at the first occurrence of the minimal depth
(ref_slice.iloc[ref_slice[x].argmin()]): np.argmin keeps the first
index attaining the minimum. -/
def minDepthRow (r : ProfileRow) : List ProfileRow → ProfileRow
  | [] => r
  | s :: rest => if s.depth < r.depth then minDepthRow s rest else minDepthRow r rest

/-- Interpolator._handle_outbound_max: the row at the maximal depth with
its depth field overwritten by the observation depth. -/
def handle_outbound_max (r : ProfileRow) (rest : List ProfileRow) (obs_depth : ℚ) :
    InterpolatedRow :=
  let m := maxDepthRow r rest
  ⟨some obs_depth, m.ys, m.consts⟩

/-- Interpolator._handle_outbound_min: the row at the minimal depth with
its depth field overwritten by the observation depth. -/
def handle_outbound_min (r : ProfileRow) (rest : List ProfileRow) (obs_depth : ℚ) :
    InterpolatedRow :=
  let m := minDepthRow r rest
  ⟨some obs_depth, m.ys, m.consts⟩

/-- Interpolator._handle_nan_depth: all depth-interpolated columns set
to NaN, constant columns copied from the first profile row, and the
depth field set to the NaN observation depth itself. -/
def handle_nan_depth (r : ProfileRow) : InterpolatedRow :=
  ⟨none, r.ys.map (fun _ => none), r.consts⟩

/-- Linear interpolation over a depth-sorted list of (x, y) points at
abscissa q, assuming q lies within the covered range: walk to the first
segment whose right end is at or past q and apply the two-point linear
formula; a NaN endpoint propagates to NaN (scipy.interpolate.interp1d
with kind="linear", the Interpolator default). -/
def interpSorted : List (ℚ × Option ℚ) → ℚ → Option ℚ
  | [], _ => none
  | [(x0, y0)], q => if q = x0 then y0 else none
  | (x0, y0) :: (x1, y1) :: rest, q =>
      if q ≤ x1 then
        match y0, y1 with
        | some a, some b => some (a + (b - a) * (q - x0) / (x1 - x0))
        | _, _ => none
      else interpSorted ((x1, y1) :: rest) q

/-- Insert one (x, y) point into a list sorted by increasing x. -/
def insertByDepth (p : ℚ × Option ℚ) : List (ℚ × Option ℚ) → List (ℚ × Option ℚ)
  | [] => [p]
  | q :: rest => if p.1 ≤ q.1 then p :: q :: rest else q :: insertByDepth p rest

/-- Sort a list of (x, y) points by increasing x. -/
def sortByDepth : List (ℚ × Option ℚ) → List (ℚ × Option ℚ)
  | [] => []
  | p :: rest => insertByDepth p (sortByDepth rest)

/-- One depth-interpolated column of the profile evaluated at the
observation depth: interp1d sorts the points by x (assume_sorted is
False) and interpolates. -/
def interpColumn (pts : List (ℚ × Option ℚ)) (q : ℚ) : Option ℚ :=
  interpSorted (sortByDepth pts) q

/-- All depth-interpolated columns of the profile evaluated at the
observation depth (the y block built by Interpolator._interpolate). -/
def interpColumns (r : ProfileRow) (rest : List ProfileRow) (q : ℚ) : List (Option ℚ) :=
  (List.range r.ys.length).map
    (fun j => interpColumn ((r :: rest).map (fun s => (s.depth, s.ys.getD j none))) q)

/-- Interpolator._interpolate: interpolate the non-constant columns at
the observation depth, copy constant columns from the first profile row,
set the depth field to the observation depth. -/
def interpolate_inbound (r : ProfileRow) (rest : List ProfileRow) (q : ℚ) : InterpolatedRow :=
  ⟨some q, interpColumns r rest q, r.consts⟩

/-- Interpolator.interpolate on a non-empty profile: NaN observation
depth passes through; an observation depth above the profile's maximal
depth value takes the maximal-depth row; below the minimal depth value,
the minimal-depth row; otherwise 1-D interpolation. -/
def Interpolator.interpolate (r : ProfileRow) (rest : List ProfileRow)
    (obs_depth : Option ℚ) : InterpolatedRow :=
  match obs_depth with
  | none => handle_nan_depth r
  | some q =>
      if (maxDepthRow r rest).depth < q then handle_outbound_max r rest q
      else if q < (minDepthRow r rest).depth then handle_outbound_min r rest q
      else interpolate_inbound r rest q

/-!
Comparison metrics (comparison/metrics.py). The observation and
simulation storers, already restricted to the labels of the compared
variables, are modelled as frames: lists of rows of possibly-NaN cells.
-/

/-- Cell of a metric frame: a float that may be NaN (none). -/
abbrev Cell := Option ℚ

/-- Frame: rows of cells, already restricted to the compared variables. -/
abbrev Frame := List (List Cell)

/-- Shape of a frame: (number of rows, number of columns), pandas
DataFrame.shape for a rectangular frame. -/
def frameShape (f : Frame) : Nat × Nat := (f.length, (f.headD []).length)

/-- Row-level full-NaN test: df.isna().all(axis=1) for one row. -/
def rowAllNan (r : List Cell) : Bool := r.all (fun c => c.isNone)

/-- Error raised by BaseMetric.evaluate_storers on mismatched shapes.
The message interpolates the observations shape, but the simulations
part of the message is a plain (not f-prefixed) string literal, so the
message shows the literal text of the placeholder instead of the
simulations shape; the constructor records the interpolated shape and
none for the shape that the message does not actually contain. -/
inductive MetricError where
  | incomparableStorers (shownObservationsShape shownSimulationsShape : Option (Nat × Nat))
  deriving DecidableEq, Repr

/-- Boolean-mask slicing of a frame, df[mask]. -/
def frameLocBool (f : Frame) (mask : List Bool) : Frame :=
  (f.zip mask).filterMap (fun p => if p.2 then some p.1 else none)

/-- BaseMetric.evaluate_storers, up to the call of the metric-specific
evaluation: raise the incomparable-storers error when the restricted
shapes differ; otherwise drop every row at whose position the
observation row is fully NaN OR the simulation row is fully NaN, and
hand the two filtered frames to the metric. -/
def BaseMetric.evaluate_storers (obs sim : Frame) :
    Except MetricError (Frame × Frame) :=
  if frameShape obs ≠ frameShape sim then
    Except.error (MetricError.incomparableStorers (some (frameShape obs)) none)
  else
    let nans := List.zipWith (fun o s => rowAllNan o || rowAllNan s) obs sim
    Except.ok (frameLocBool obs (nans.map (fun b => !b)),
               frameLocBool sim (nans.map (fun b => !b)))

/-!
Spatial matching (comparison/matching.py). Match links each observation
row index to the flat index of its chosen simulation grid cell.
-/

/-- Match.match. The Match was built from the observation-to-simulation
Series, modelled as the list of (observation index, simulation flat
index) pairs in Series order. The loaded simulation dataframe is a list
of (flat simulation index, row) pairs. The left merge of the loaded
index with the index link produces, for every loaded row in order, one
output row per observation whose chosen flat index equals that loaded
row's index (in link order) — or a single output row with a null (NaN)
index when no observation chose it; each output row is the loaded row
re-indexed by the observation index. -/
def Match.matchLoaded {α : Type} (index_link : List (Nat × Nat))
    (loaded : List (Nat × α)) : List (Option Nat × α) :=
  loaded.foldr
    (fun p acc =>
      let ms := index_link.filter (fun l => l.2 == p.1)
      (if ms.isEmpty then [(none, p.2)]
       else ms.map (fun l => (some l.1, p.2))) ++ acc)
    []

/-- Reference observation row for SelectiveDataSource.load_all: its
dataframe index and its date (a calendar date, modelled as ℤ). -/
structure RefRow where
  idx : Nat
  date : ℤ
  deriving DecidableEq, Repr

/-- pd.concat over a list of dataframes: raises
ValueError("No objects to concatenate") on an empty list. -/
def pdConcat {α : Type} (datas : List (List α)) : Except String (List α) :=
  if datas.isEmpty then Except.error "ValueError: No objects to concatenate"
  else Except.ok datas.flatten

/-- SelectiveDataSource.load_all, abstracted over the per-file
select/load/match step: every simulation file (given by its parsed date)
whose date slice of the reference is empty is skipped; otherwise the
matched simulation dataframe for that file (abstracted as loadMatch
applied to the date and the slice) is accumulated; finally the
accumulated dataframes are concatenated with pd.concat, which raises on
an empty list instead of returning an empty storer. -/
def SelectiveDataSource.load_all {α : Type}
    (loadMatch : ℤ → List RefRow → List α)
    (filepathDates : List ℤ) (reference : List RefRow) :
    Except String (List α) :=
  let datas := filepathDates.foldr
    (fun d acc =>
      let data_slice := reference.filter (fun r => r.date == d)
      if data_slice.isEmpty then acc else loadMatch d data_slice :: acc)
    []
  pdConcat datas

/-!
Feature variables (core/variables/sets.py and vars.py). A FeatureVar is
identified by its name (BaseVar equality compares the name_unit
representation; units are not needed by the claims and every variable of
the model carries the same unit) and carries the names of its required
input variables.
-/

/-- FeatureVar: the variable's name and the names of the variables the
feature requires. -/
structure FeatureVar where
  name : String
  required : List String
  deriving DecidableEq, Repr

/-- FeatureVar.is_loadable: every required variable name occurs among
the available variables' names. -/
def FeatureVar.is_loadable (f : FeatureVar) (available : List String) : Bool :=
  f.required.all (fun n => available.contains n)

/-- FeatureVariablesSet._get_constructable_features: the inspected
features loadable from the available variables. -/
def get_constructable_features (to_inspect : List FeatureVar) (available : List String) :
    List FeatureVar :=
  to_inspect.filter (fun f => f.is_loadable available)

/-- Loop of FeatureVariablesSet.iter_constructables_features, with the
yielded features accumulated in order. Each pass computes the
constructable features, yields them all while appending their names to
the available list, removes them from the pending features (the filter
keeps a feature only when nothing available equals it) and repeats; when
a pass yields nothing, pending features mean the
FeatureConstructionError. The fuel argument only bounds the recursion;
every productive pass strictly shrinks the pending list, so the fuel
chosen by iter_constructables_features is never exhausted. -/
def iterLoop : Nat → List FeatureVar → List String → List FeatureVar →
    Except Unit (List FeatureVar)
  | 0, features, _, acc => if features.isEmpty then Except.ok acc else Except.error ()
  | fuel + 1, features, available, acc =>
      let constructables := get_constructable_features features available
      if constructables.isEmpty then
        if features.isEmpty then Except.ok acc else Except.error ()
      else
        let available2 := available ++ constructables.map (fun f => f.name)
        let features2 := features.filter (fun f => available2.all (fun a => a ≠ f.name))
        iterLoop fuel features2 available2 (acc ++ constructables)

/-- FeatureVariablesSet.iter_constructables_features: the sequence of
yielded features on success, the FeatureConstructionError (modelled as
Except.error) when unbuildable features remain. -/
def iter_constructables_features (elements : List FeatureVar) (available_vars : List String) :
    Except Unit (List FeatureVar) :=
  iterLoop (elements.length + 1) elements available_vars []

/-- Dependency-order predicate on a yielded sequence: each feature's
required names are all available at its position, counting the initially
available names and the names of the previously yielded features. -/
def topoOrdered (available : List String) : List FeatureVar → Bool
  | [] => true
  | f :: rest => f.is_loadable available && topoOrdered (available ++ [f.name]) rest

/-!
Storer concatenation (core/storers.py). A Storer owns a dataframe, a
category, the provider list and a variable set; a variable of the set is
modelled by its (name, unit) pair, which determines its repr.
-/

/-- Variable set of a storer: the (name, unit) pairs of its variables. -/
abbrev VarSet := List (String × String)

/-- VariableSet.__eq__: same length, same name-key sets, and for every
name the two variables have equal reprs (name_unit), i.e. equal units. -/
def varSetEq (a b : VarSet) : Bool :=
  a.length == b.length
    && (a.map Prod.fst).all (fun n => (b.map Prod.fst).contains n)
    && (b.map Prod.fst).all (fun n => (a.map Prod.fst).contains n)
    && (a.map Prod.fst).all (fun n => a.lookup n == b.lookup n)

/-- Storer: dataframe rows, category, providers, variable set. -/
structure Storer where
  data : List Row
  category : String
  providers : List String
  «variables» : VarSet
  deriving DecidableEq

/-- Errors raised by Storer.__add__. -/
inductive StorerAddError where
  | incompatibleVariableSets
  | incompatibleCategories
  deriving DecidableEq, Repr

/-- Storer.__add__: raise when the variable sets differ, then when the
categories differ; otherwise concatenate the dataframes (ignore_index)
and take the duplicate-free union of the provider lists
(list(set(a + b)); Python set order is unspecified, modelled as dedup,
and the theorems only use membership and duplicate-freeness). -/
def Storer.add (s o : Storer) : Except StorerAddError Storer :=
  if !(varSetEq s.variables o.variables) then
    Except.error StorerAddError.incompatibleVariableSets
  else if s.category ≠ o.category then
    Except.error StorerAddError.incompatibleCategories
  else
    Except.ok
      { data := s.data ++ o.data,
        category := s.category,
        providers := (s.providers ++ o.providers).dedup,
        «variables» := s.variables }

/-! Concrete fixtures used by the witness and counterexample theorems. -/

/-- Ten-row table with column A valued 0..9 (property P1 of the spec). -/
def dfW1 : DataFrame := (List.range 10).map (fun i => ((i : Nat), [("A", (i : ℚ))]))

/-- Boundary [2, 8] and superset {3, 5, 7} on column A plus an
always-true polygon on (LAT, LON). -/
def cW1 : Constraints :=
  ((Constraints.empty.add_boundary_constraint "A" (some 2) (some 8)
      ).add_superset_constraint "A" [3, 5, 7]
      ).add_polygon_constraint "LAT" "LON" (fun _ _ => true)

/-- Boundary [2, 8] and superset {3, 5, 7} on column A (fixture for the
get_extremes claims). -/
def cC6 : Constraints :=
  (Constraints.empty.add_boundary_constraint "A" (some 2) (some 8)
      ).add_superset_constraint "A" [3, 5, 7]

/-- Superset constraint {1, 2} on column A (fixture for the
apply_specific_constraint claim). -/
def cC7 : Constraints := Constraints.empty.add_superset_constraint "A" [1, 2]

/-- Profile row at depth -5 (property P6 of the spec). -/
def p6a : ProfileRow := ⟨-5, [some 1], [some 100]⟩

/-- Profile row at depth -10 (property P6 of the spec). -/
def p6b : ProfileRow := ⟨-10, [some 2], [some 100]⟩

/-- Profile row at depth -20 (property P6 of the spec). -/
def p6c : ProfileRow := ⟨-20, [some 3], [some 100]⟩

/-- Feature F1 requiring raw variables A and B (property P4 of the
spec). -/
def fF1 : FeatureVar := ⟨"F1", ["A", "B"]⟩

/-- Feature F2 requiring F1 and the raw variable C (property P4 of the
spec). -/
def fF2 : FeatureVar := ⟨"F2", ["F1", "C"]⟩

/-- Feature F2 of the two-feature cycle (property P4 of the spec). -/
def gF2 : FeatureVar := ⟨"F2", ["F3"]⟩

/-- Feature F3 of the two-feature cycle (property P4 of the spec). -/
def gF3 : FeatureVar := ⟨"F3", ["F2"]⟩

/-- One-row storer fixture with provider argo. -/
def stW1 : Storer := ⟨[[("A", 1)]], "in_situ", ["argo"], [("A", "[u]")]⟩

/-- Two-row storer fixture with providers imr and argo, same variable
set and category as stW1. -/
def stW2 : Storer := ⟨[[("A", 2)], [("A", 3)]], "in_situ", ["imr", "argo"], [("A", "[u]")]⟩

/-! Helper lemmas about the boolean-series combinators of the
constraint engine. -/

theorem zipWith_and_map {α : Type} (f g : α → Bool) (l : List α) :
    List.zipWith (fun a b => a && b) (l.map f) (l.map g)
      = l.map (fun x => f x && g x) := by
  induction l with
  | nil => rfl
  | cons x xs ih => simp [ih]

theorem foldl_and_series {α β : Type} (entries : List β) (p : β → α → Bool)
    (l : List α) (g : α → Bool) :
    entries.foldl
        (fun series e => List.zipWith (fun a b => a && b) series (l.map (p e)))
        (l.map g)
      = l.map (fun x => g x && entries.all (fun e => p e x)) := by
  induction entries generalizing g with
  | nil => simp
  | cons e rest ih =>
      simp only [List.foldl_cons, zipWith_and_map, ih, List.all_cons]
      simp only [Bool.and_assoc]

theorem locBool_map {h : Nat × Row → Bool} (df : DataFrame) :
    locBool df (df.map h) = df.filter h := by
  induction df with
  | nil => rfl
  | cons r rest ih =>
      simp only [locBool] at ih ⊢
      simp only [List.map_cons, List.zip_cons_cons, List.filterMap_cons,
        List.filter_cons]
      cases hr : h r <;> simp [hr, ih]

theorem apply_boundary_eq_map (c : Constraints) (df : DataFrame) :
    c.apply_boundary_constraints df
      = df.map (fun r =>
          c.boundaries.all (fun e => boundaryBool e.2 (r.2.cell e.1))) := by
  unfold Constraints.apply_boundary_constraints
  rw [foldl_and_series]
  simp

theorem apply_superset_eq_map (c : Constraints) (df : DataFrame) :
    c.apply_superset_constraints df
      = df.map (fun r =>
          c.supersets.all (fun e => supersetBool e.2 (r.2.cell e.1))) := by
  unfold Constraints.apply_superset_constraints
  rw [foldl_and_series]
  simp

theorem apply_polygon_eq_map (c : Constraints) (df : DataFrame) :
    c.apply_polygon_constraints df
      = df.map (fun r => c.polygons.all (fun e => polygonBool e r.2)) := by
  unfold Constraints.apply_polygon_constraints
  rw [foldl_and_series]
  simp

theorem apply_constraints_eq_filter (c : Constraints) (df : DataFrame) :
    c.apply_constraints_to_dataframe df = df.filter (fun p => c.rowPasses p.2) := by
  simp only [Constraints.apply_constraints_to_dataframe, apply_boundary_eq_map,
    apply_superset_eq_map, apply_polygon_eq_map, zipWith_and_map]
  rw [locBool_map]
  rfl

/-- C1: for every dataframe and every set of registered boundary,
superset and polygon constraints (add_superset_constraint never stores
an empty value list, hence the well-formedness hypothesis), applying the
constraints returns exactly the rows on which every registered predicate
holds — the conjunction of the individually-evaluated boundary, superset
and polygon predicates — with their original index values; and with no
constraints registered the dataframe's (index, row) pairs are returned
unchanged. -/
theorem claim_C1_constraint_conjunction (c : Constraints) (df : DataFrame)
    (_hwf : ∀ e ∈ c.supersets, e.2 ≠ []) :
    c.apply_constraints_to_dataframe df
        = df.filter (fun p =>
            c.boundaries.all (fun e => boundaryBool e.2 (Row.cell p.2 e.1))
              && c.supersets.all (fun e => supersetBool e.2 (Row.cell p.2 e.1))
              && c.polygons.all (fun e => polygonBool e p.2))
      ∧ Constraints.empty.apply_constraints_to_dataframe df = df := by
  constructor
  · exact apply_constraints_eq_filter c df
  · rw [apply_constraints_eq_filter]
    simp [Constraints.rowPasses, Constraints.empty]

/-- Witness for C1: on the concrete 10-row table with column A valued
0..9 and the concrete constraints (boundary [2, 8] and superset
{3, 5, 7} on A, always-true polygon), the filtered result is exactly the
conjunction-filtered table, and the empty constraint set returns the
table unchanged. -/
theorem claim_C1_constraint_conjunction_witness :
    cW1.apply_constraints_to_dataframe dfW1
        = dfW1.filter (fun p =>
            cW1.boundaries.all (fun e => boundaryBool e.2 (Row.cell p.2 e.1))
              && cW1.supersets.all (fun e => supersetBool e.2 (Row.cell p.2 e.1))
              && cW1.polygons.all (fun e => polygonBool e p.2))
      ∧ Constraints.empty.apply_constraints_to_dataframe dfW1 = dfW1 :=
  claim_C1_constraint_conjunction cW1 dfW1 (by decide)

/-- C9: Constraints.reset clears the boundary and superset constraints
but leaves every previously registered polygon constraint in place, so
applying the constraints after a reset filters every dataframe's rows by
exactly the polygon constraints registered before the reset. -/
theorem claim_C9_reset_keeps_polygons (c : Constraints) (df : DataFrame) :
    (c.reset).polygons = c.polygons
      ∧ (c.reset).boundaries = [] ∧ (c.reset).supersets = []
      ∧ c.reset.apply_constraints_to_dataframe df
        = df.filter (fun p => c.polygons.all (fun e => polygonBool e p.2)) := by
  refine ⟨rfl, rfl, rfl, ?_⟩
  rw [apply_constraints_eq_filter]
  simp [Constraints.rowPasses, Constraints.reset]

/-! Helper lemmas about list minima and maxima. -/

theorem foldl_min_le_init (xs : List ℚ) (a : ℚ) : xs.foldl min a ≤ a := by
  induction xs generalizing a with
  | nil => simp
  | cons z zs ih => exact le_trans (ih (min a z)) (min_le_left a z)

theorem foldl_min_le_mem (xs : List ℚ) (a y : ℚ) (hy : y ∈ xs) :
    xs.foldl min a ≤ y := by
  induction xs generalizing a with
  | nil => cases hy
  | cons z zs ih =>
      rcases List.mem_cons.1 hy with h | h
      · rw [h]
        exact le_trans (foldl_min_le_init zs (min a z)) (min_le_right a z)
      · exact ih (min a z) h

theorem init_le_foldl_max (xs : List ℚ) (a : ℚ) : a ≤ xs.foldl max a := by
  induction xs generalizing a with
  | nil => simp
  | cons z zs ih => exact le_trans (le_max_left a z) (ih (max a z))

theorem mem_le_foldl_max (xs : List ℚ) (a y : ℚ) (hy : y ∈ xs) :
    y ≤ xs.foldl max a := by
  induction xs generalizing a with
  | nil => cases hy
  | cons z zs ih =>
      rcases List.mem_cons.1 hy with h | h
      · rw [h]
        exact le_trans (le_max_right a z) (init_le_foldl_max zs (max a z))
      · exact ih (max a z) h

theorem listMin_le (vs : List ℚ) (m : ℚ) (hm : listMin vs = some m) :
    ∀ v ∈ vs, m ≤ v := by
  match vs with
  | [] => cases hm
  | x :: xs =>
      simp only [listMin, Option.some.injEq] at hm
      intro v hv
      rcases List.mem_cons.1 hv with h | h
      · subst h; rw [← hm]; exact foldl_min_le_init xs v
      · rw [← hm]; exact foldl_min_le_mem xs x v h

theorem le_listMax (vs : List ℚ) (m : ℚ) (hm : listMax vs = some m) :
    ∀ v ∈ vs, v ≤ m := by
  match vs with
  | [] => cases hm
  | x :: xs =>
      simp only [listMax, Option.some.injEq] at hm
      intro v hv
      rcases List.mem_cons.1 hv with h | h
      · subst h; rw [← hm]; exact init_le_foldl_max xs v
      · rw [← hm]; exact mem_le_foldl_max xs x v h

/-- Counterexample to C6: with boundary [2, 8] and superset {3, 5, 7}
registered on field A, the tightest [min, max] interval implied by the
conjunction of the two constraints (formalised by tightest_extremes,
which follows the claim's words: the extent of the superset values that
satisfy the boundary) is (3, 7), but get_extremes returns (2, 8) — the
widest envelope of the two constraints, not the tightest interval. -/
theorem claim_C6_counterexample :
    cC6.get_extremes "A" none none = (some 2, some 8)
      ∧ cC6.tightest_extremes "A" none none = (some 3, some 7)
      ∧ cC6.get_extremes "A" none none ≠ cC6.tightest_extremes "A" none none := by
  refine ⟨by decide, by decide, by decide⟩

/-- C6 (amended): get_extremes returns the provided defaults when the
field is unconstrained; the boundary bounds when only a boundary
constraint exists; the superset's minimum and maximum when only a
superset constraint exists; and when both exist it returns the loosest
envelope — the minimum of the two minima and the maximum of the two
maxima, an interval containing both the whole boundary interval and all
superset values (not the tightest interval implied by their
conjunction). -/
theorem claim_C6_extremes_amended (c : Constraints) (field : String)
    (dmin dmax : Option ℚ) :
    (c.boundaries.lookup field = none → c.supersets.lookup field = none →
        c.get_extremes field dmin dmax = (dmin, dmax))
      ∧ (∀ b1 b2, c.boundaries.lookup field = some (b1, b2) →
          c.supersets.lookup field = none →
          c.get_extremes field dmin dmax = (b1, b2))
      ∧ (∀ vs, c.boundaries.lookup field = none →
          c.supersets.lookup field = some vs →
          c.get_extremes field dmin dmax = (listMin vs, listMax vs)
            ∧ ∀ m M, listMin vs = some m → listMax vs = some M →
                ∀ v ∈ vs, m ≤ v ∧ v ≤ M)
      ∧ (∀ b1 b2 vs, c.boundaries.lookup field = some (b1, b2) →
          c.supersets.lookup field = some vs → vs ≠ [] →
          ∃ s_min s_max, listMin vs = some s_min ∧ listMax vs = some s_max
            ∧ c.get_extremes field dmin dmax = (pyMinNan b1 s_min, pyMaxNan b2 s_max)
            ∧ (∀ bq, b1 = some bq →
                ∃ m, pyMinNan b1 s_min = some m ∧ m ≤ bq ∧ ∀ v ∈ vs, m ≤ v)
            ∧ (∀ bq, b2 = some bq →
                ∃ M, pyMaxNan b2 s_max = some M ∧ bq ≤ M ∧ ∀ v ∈ vs, v ≤ M)) := by
  refine ⟨?_, ?_, ?_, ?_⟩
  · intro h1 h2
    simp [Constraints.get_extremes, h1, h2]
  · intro b1 b2 h1 h2
    simp [Constraints.get_extremes, h1, h2]
  · intro vs h1 h2
    refine ⟨by simp [Constraints.get_extremes, h1, h2], ?_⟩
    intro m M hm hM v hv
    exact ⟨listMin_le vs m hm v hv, le_listMax vs M hM v hv⟩
  · intro b1 b2 vs h1 h2 hne
    match vs, hne with
    | x :: xs, _ =>
        refine ⟨xs.foldl min x, xs.foldl max x, rfl, rfl, ?_, ?_, ?_⟩
        · simp [Constraints.get_extremes, h1, h2, listMin, listMax]
        · intro bq hb
          subst hb
          refine ⟨if xs.foldl min x < bq then xs.foldl min x else bq, rfl, ?_, ?_⟩
          · split
            · exact le_of_lt (by assumption)
            · exact le_refl bq
          · intro v hv
            have hmin : xs.foldl min x ≤ v := listMin_le (x :: xs) _ rfl v hv
            split
            · exact hmin
            · exact le_trans (le_of_not_lt (by assumption)) hmin
        · intro bq hb
          subst hb
          refine ⟨if bq < xs.foldl max x then xs.foldl max x else bq, rfl, ?_, ?_⟩
          · split
            · exact le_of_lt (by assumption)
            · exact le_refl bq
          · intro v hv
            have hmax : v ≤ xs.foldl max x := le_listMax (x :: xs) _ rfl v hv
            split
            · exact hmax
            · exact le_trans hmax (le_of_not_lt (by assumption))

/-- Witness for the amended C6: on the concrete constraints (boundary
[2, 8] and superset {3, 5, 7} on A), the combined branch returns the
envelope and its bounds enclose the boundary bounds and every superset
value. -/
theorem claim_C6_extremes_amended_witness :
    ∃ s_min s_max, listMin [(3 : ℚ), 5, 7] = some s_min
      ∧ listMax [(3 : ℚ), 5, 7] = some s_max
      ∧ cC6.get_extremes "A" none none
          = (pyMinNan (some 2) s_min, pyMaxNan (some 8) s_max)
      ∧ (∀ bq, (some (2 : ℚ) : Option ℚ) = some bq →
          ∃ m, pyMinNan (some 2) s_min = some m ∧ m ≤ bq ∧ ∀ v ∈ [(3 : ℚ), 5, 7], m ≤ v)
      ∧ (∀ bq, (some (8 : ℚ) : Option ℚ) = some bq →
          ∃ M, pyMaxNan (some 8) s_max = some M ∧ bq ≤ M ∧ ∀ v ∈ [(3 : ℚ), 5, 7], v ≤ M) :=
  (claim_C6_extremes_amended cC6 "A" none none).2.2.2 (some 2) (some 8) [3, 5, 7]
    (by decide) (by decide) (by decide)

/-- C7 (code bug): apply_specific_constraint on a field that has a
superset constraint raises a TypeError, because the Python source calls
add_superset_constraint with the misspelled keyword argument
value_superset while the parameter is named values_superset; the
documented behaviour — filtering by only that field's registered
constraint — therefore only happens on the boundary-only path, shown on
the same table in the second conjunct. -/
theorem claim_C7_specific_constraint_typeerror :
    cC7.apply_specific_constraint "A" dfW1
        = Except.error
            "TypeError: add_superset_constraint got an unexpected keyword argument value_superset"
      ∧ (Constraints.empty.add_boundary_constraint "A" (some 2) (some 8)
          ).apply_specific_constraint "A" dfW1
        = Except.ok (dfW1.filter (fun p =>
            boundaryBool (some 2, some 8) (Row.cell p.2 "A"))) := by
  constructor
  · rfl
  · rw [Constraints.apply_specific_constraint]
    rfl

/-! Helper lemmas about the rows selected by the out-of-bound branches
of the interpolator. -/

theorem minDepthRow_mem (r : ProfileRow) (l : List ProfileRow) :
    minDepthRow r l ∈ r :: l := by
  induction l generalizing r with
  | nil => simp [minDepthRow]
  | cons s rest ih =>
      simp only [minDepthRow]
      split
      · rcases List.mem_cons.1 (ih s) with h | h
        · rw [h]; simp
        · exact List.mem_cons_of_mem _ (List.mem_cons_of_mem _ h)
      · rcases List.mem_cons.1 (ih r) with h | h
        · rw [h]; simp
        · exact List.mem_cons_of_mem _ (List.mem_cons_of_mem _ h)

theorem minDepthRow_le (r : ProfileRow) (l : List ProfileRow) :
    ∀ s ∈ r :: l, (minDepthRow r l).depth ≤ s.depth := by
  induction l generalizing r with
  | nil =>
      intro s hs
      rcases List.mem_cons.1 hs with h | h
      · rw [h]
        exact le_refl _
      · cases h
  | cons t rest ih =>
      intro s hs
      simp only [minDepthRow]
      split
      · rename_i ht
        rcases List.mem_cons.1 hs with h | h
        · rw [h]
          exact le_trans (ih t t (List.mem_cons_self t rest)) (le_of_lt ht)
        · exact ih t s h
      · rename_i ht
        rcases List.mem_cons.1 hs with h | h
        · rw [h]
          exact ih r r (List.mem_cons_self r rest)
        · rcases List.mem_cons.1 h with h2 | h2
          · rw [h2]
            exact le_trans (ih r r (List.mem_cons_self r rest)) (le_of_not_lt ht)
          · exact ih r s (List.mem_cons_of_mem r h2)

theorem maxDepthRow_mem (r : ProfileRow) (l : List ProfileRow) :
    maxDepthRow r l ∈ r :: l := by
  induction l generalizing r with
  | nil => simp [maxDepthRow]
  | cons s rest ih =>
      simp only [maxDepthRow]
      split
      · rcases List.mem_cons.1 (ih s) with h | h
        · rw [h]; simp
        · exact List.mem_cons_of_mem _ (List.mem_cons_of_mem _ h)
      · rcases List.mem_cons.1 (ih r) with h | h
        · rw [h]; simp
        · exact List.mem_cons_of_mem _ (List.mem_cons_of_mem _ h)

theorem le_maxDepthRow (r : ProfileRow) (l : List ProfileRow) :
    ∀ s ∈ r :: l, s.depth ≤ (maxDepthRow r l).depth := by
  induction l generalizing r with
  | nil =>
      intro s hs
      rcases List.mem_cons.1 hs with h | h
      · rw [h]
        exact le_refl _
      · cases h
  | cons t rest ih =>
      intro s hs
      simp only [maxDepthRow]
      split
      · rename_i ht
        rcases List.mem_cons.1 hs with h | h
        · rw [h]
          exact le_trans (le_of_lt ht) (ih t t (List.mem_cons_self t rest))
        · exact ih t s h
      · rename_i ht
        rcases List.mem_cons.1 hs with h | h
        · rw [h]
          exact ih r r (List.mem_cons_self r rest)
        · rcases List.mem_cons.1 h with h2 | h2
          · rw [h2]
            exact le_trans (le_of_not_lt ht) (ih r r (List.mem_cons_self r rest))
          · exact ih r s (List.mem_cons_of_mem r h2)

/-- C2: for every profile with at least one row (all depths nonpositive,
the oceanographic sign convention that makes depth magnitude the
negation of the depth value) and every observation depth:
a NaN observation depth returns a row whose depth-interpolated columns
are all NaN, whose constant columns are copied from the first profile
row and whose depth field is the NaN itself; an observation depth whose
magnitude exceeds every profile depth magnitude (deep side) returns the
profile row of maximal depth magnitude with only the depth field
overwritten; an observation depth whose magnitude is below every profile
depth magnitude (shallow side) returns the profile row of minimal depth
magnitude with only the depth field overwritten; an observation depth
within the profile's depth range 1-D-interpolates the non-constant
columns at the observation depth and copies the constant columns from
the first profile row. -/
theorem claim_C2_interpolate_depth_policy (r0 : ProfileRow) (rest : List ProfileRow)
    (hsign : ∀ r ∈ r0 :: rest, r.depth ≤ 0) :
    Interpolator.interpolate r0 rest none
        = ⟨none, r0.ys.map (fun _ => none), r0.consts⟩
      ∧ (∀ q : ℚ, q ≤ 0 → (∀ r ∈ r0 :: rest, |r.depth| < |q|) →
          Interpolator.interpolate r0 rest (some q)
              = ⟨some q, (minDepthRow r0 rest).ys, (minDepthRow r0 rest).consts⟩
            ∧ minDepthRow r0 rest ∈ r0 :: rest
            ∧ ∀ r ∈ r0 :: rest, |r.depth| ≤ |(minDepthRow r0 rest).depth|)
      ∧ (∀ q : ℚ, q ≤ 0 → (∀ r ∈ r0 :: rest, |q| < |r.depth|) →
          Interpolator.interpolate r0 rest (some q)
              = ⟨some q, (maxDepthRow r0 rest).ys, (maxDepthRow r0 rest).consts⟩
            ∧ maxDepthRow r0 rest ∈ r0 :: rest
            ∧ ∀ r ∈ r0 :: rest, |(maxDepthRow r0 rest).depth| ≤ |r.depth|)
      ∧ (∀ q : ℚ, (minDepthRow r0 rest).depth ≤ q → q ≤ (maxDepthRow r0 rest).depth →
          Interpolator.interpolate r0 rest (some q)
              = ⟨some q, interpColumns r0 rest q, r0.consts⟩) := by
  have habs : ∀ r ∈ r0 :: rest, |r.depth| = -r.depth := fun r hr => abs_of_nonpos (hsign r hr)
  refine ⟨rfl, ?_, ?_, ?_⟩
  · intro q hq hdeep
    have hlt : ∀ r ∈ r0 :: rest, q < r.depth := by
      intro r hr
      have h1 : -r.depth < -q := by
        have := hdeep r hr
        rwa [habs r hr, abs_of_nonpos hq] at this
      linarith
    have hmax : ¬ (maxDepthRow r0 rest).depth < q :=
      not_lt.2 (le_of_lt (hlt _ (maxDepthRow_mem r0 rest)))
    have hmin : q < (minDepthRow r0 rest).depth := hlt _ (minDepthRow_mem r0 rest)
    refine ⟨?_, minDepthRow_mem r0 rest, ?_⟩
    · simp only [Interpolator.interpolate]
      rw [if_neg hmax, if_pos hmin]
      rfl
    · intro r hr
      rw [habs r hr, habs _ (minDepthRow_mem r0 rest)]
      have := minDepthRow_le r0 rest r hr
      linarith
  · intro q hq hshallow
    have hgt : ∀ r ∈ r0 :: rest, r.depth < q := by
      intro r hr
      have h1 : -q < -r.depth := by
        have := hshallow r hr
        rwa [habs r hr, abs_of_nonpos hq] at this
      linarith
    have hmax : (maxDepthRow r0 rest).depth < q := hgt _ (maxDepthRow_mem r0 rest)
    refine ⟨?_, maxDepthRow_mem r0 rest, ?_⟩
    · simp only [Interpolator.interpolate]
      rw [if_pos hmax]
      rfl
    · intro r hr
      rw [habs r hr, habs _ (maxDepthRow_mem r0 rest)]
      have := le_maxDepthRow r0 rest r hr
      linarith
  · intro q hmin hmax
    simp only [Interpolator.interpolate]
    rw [if_neg (not_lt.2 hmax), if_neg (not_lt.2 hmin)]
    rfl

/-- Witness for C2: on the profile with depths -5, -10, -20 (property
P6 of the spec), observation depth -30 yields the row at depth -20 with
the depth field set to -30, observation depth -2 yields the row at
depth -5 with the depth field set to -2, observation depth NaN yields
NaN interpolated values with the constant column of the first row, and
observation depth -15 interpolates. -/
theorem claim_C2_interpolate_depth_policy_witness :
    Interpolator.interpolate p6a [p6b, p6c] none = ⟨none, [none], [some 100]⟩
      ∧ Interpolator.interpolate p6a [p6b, p6c] (some (-30))
          = ⟨some (-30), [some 3], [some 100]⟩
      ∧ Interpolator.interpolate p6a [p6b, p6c] (some (-2))
          = ⟨some (-2), [some 1], [some 100]⟩
      ∧ Interpolator.interpolate p6a [p6b, p6c] (some (-15))
          = ⟨some (-15), interpColumns p6a [p6b, p6c] (-15), [some 100]⟩ := by
  have h := claim_C2_interpolate_depth_policy p6a [p6b, p6c] (by decide)
  exact ⟨h.1,
    (h.2.1 (-30) (by norm_num) (by decide)).1,
    (h.2.2.1 (-2) (by norm_num) (by decide)).1,
    h.2.2.2 (-15) (by decide) (by decide)⟩

/-! Helper lemmas about the row-exclusion mask of evaluate_storers. -/

theorem frameLocBool_fst (obs : Frame) :
    ∀ (sim : Frame), obs.length = sim.length →
      frameLocBool obs
          ((List.zipWith (fun o s => rowAllNan o || rowAllNan s) obs sim).map (fun b => !b))
        = ((obs.zip sim).filter (fun p => !(rowAllNan p.1 || rowAllNan p.2))).map Prod.fst := by
  induction obs with
  | nil => intro sim _; rfl
  | cons o os ih =>
      intro sim hlen
      match sim with
      | [] => cases hlen
      | s :: ss =>
          simp only [frameLocBool, List.zipWith_cons_cons, List.map_cons,
            List.zip_cons_cons, List.filterMap_cons, List.filter_cons]
          have hrec := ih ss (by simpa using hlen)
          simp only [frameLocBool] at hrec
          cases hns : rowAllNan o || rowAllNan s <;> simp [hns, hrec]

theorem frameLocBool_snd (obs : Frame) :
    ∀ (sim : Frame), obs.length = sim.length →
      frameLocBool sim
          ((List.zipWith (fun o s => rowAllNan o || rowAllNan s) obs sim).map (fun b => !b))
        = ((obs.zip sim).filter (fun p => !(rowAllNan p.1 || rowAllNan p.2))).map Prod.snd := by
  induction obs with
  | nil =>
      intro sim hlen
      match sim with
      | [] => rfl
      | s :: ss => cases hlen
  | cons o os ih =>
      intro sim hlen
      match sim with
      | [] => cases hlen
      | s :: ss =>
          simp only [frameLocBool, List.zipWith_cons_cons, List.map_cons,
            List.zip_cons_cons, List.filterMap_cons, List.filter_cons]
          have hrec := ih ss (by simpa using hlen)
          simp only [frameLocBool] at hrec
          cases hns : rowAllNan o || rowAllNan s <;> simp [hns, hrec]

/-- Counterexample to C3: on equal-shaped 2-by-1 frames whose first
observation row is fully NaN while the first simulation row is not,
evaluate_storers excludes that row (the mask is an OR of the two
full-NaN tests, not an AND), although the claim states that a row where
only one side is fully NaN is retained. -/
theorem claim_C3_counterexample :
    BaseMetric.evaluate_storers [[(none : Cell)], [some 1]] [[some 5], [some 2]]
        = Except.ok ([[some 1]], [[some 2]])
      ∧ rowAllNan [(none : Cell)] = true
      ∧ rowAllNan [(some 5 : Cell)] = false :=
  ⟨rfl, rfl, rfl⟩

/-- C3 (amended): when the frames restricted to the compared variables
have equal shapes, evaluate_storers excludes exactly the rows at whose
position the observation row is fully NaN OR the simulation row is
fully NaN across all compared variables (so a row where only one side
is fully NaN is excluded as well, while partially-NaN rows are retained
and let NaN propagate into the metric); mismatched shapes raise the
incomparable-storers error, whose message interpolates the observation
shape but shows a literal placeholder instead of the simulation shape
(the simulations part of the message lacks the f prefix in the source). -/
theorem claim_C3_evaluate_storers_amended (obs sim : Frame) :
    (frameShape obs ≠ frameShape sim →
        BaseMetric.evaluate_storers obs sim
          = Except.error (MetricError.incomparableStorers (some (frameShape obs)) none))
      ∧ (frameShape obs = frameShape sim →
          BaseMetric.evaluate_storers obs sim
            = Except.ok
                (((obs.zip sim).filter (fun p => !(rowAllNan p.1 || rowAllNan p.2))).map Prod.fst,
                 ((obs.zip sim).filter (fun p => !(rowAllNan p.1 || rowAllNan p.2))).map Prod.snd)) := by
  constructor
  · intro hne
    simp [BaseMetric.evaluate_storers, hne]
  · intro heq
    have hlen : obs.length = sim.length := congrArg Prod.fst heq
    simp only [BaseMetric.evaluate_storers, heq]
    rw [if_neg (by simp)]
    rw [frameLocBool_fst obs sim hlen, frameLocBool_snd obs sim hlen]

/-- Witness for the amended C3: on the concrete frames of the
counterexample (equal shapes, first observation row fully NaN), the
result keeps exactly the second row pair; and on frames of different
shapes the error shows the observation shape and no simulation shape. -/
theorem claim_C3_evaluate_storers_amended_witness :
    BaseMetric.evaluate_storers [[(none : Cell)], [some 1]] [[some 5], [some 2]]
        = Except.ok
            ((([[(none : Cell)], [some 1]].zip [[some 5], [some 2]]).filter
                (fun p => !(rowAllNan p.1 || rowAllNan p.2))).map Prod.fst,
             (([[(none : Cell)], [some 1]].zip [[some 5], [some 2]]).filter
                (fun p => !(rowAllNan p.1 || rowAllNan p.2))).map Prod.snd)
      ∧ BaseMetric.evaluate_storers [[(none : Cell)]] [[some 5], [some 2]]
        = Except.error (MetricError.incomparableStorers (some (1, 1)) none) :=
  ⟨(claim_C3_evaluate_storers_amended [[(none : Cell)], [some 1]] [[some 5], [some 2]]).2 rfl,
   (claim_C3_evaluate_storers_amended [[(none : Cell)]] [[some 5], [some 2]]).1 (by decide)⟩

/-! Helper lemmas about Match.matchLoaded: unfolding one loaded row,
and the double-counting identity behind the output row count. -/

theorem matchLoaded_cons {α : Type} (link : List (Nat × Nat)) (p : Nat × α)
    (rest : List (Nat × α)) :
    Match.matchLoaded link (p :: rest)
      = (if (link.filter (fun l => l.2 == p.1)).isEmpty then [(none, p.2)]
         else (link.filter (fun l => l.2 == p.1)).map (fun l => (some l.1, p.2)))
        ++ Match.matchLoaded link rest := rfl

theorem sum_map_add_distrib {β : Type} (g h : β → Nat) (B : List β) :
    (B.map (fun b => g b + h b)).sum = (B.map g).sum + (B.map h).sum := by
  induction B with
  | nil => rfl
  | cons b bs ih => simp [ih]; omega

theorem sum_indicator_eq_filter_length {β : Type} (f : β → Bool) (B : List β) :
    (B.map (fun b => if f b then 1 else 0)).sum = (B.filter f).length := by
  induction B with
  | nil => rfl
  | cons b bs ih => cases hb : f b <;> simp [hb, ih] <;> omega

theorem filter_length_swap {α β : Type} (f : α → β → Bool) (A : List α) (B : List β) :
    (A.map (fun a => (B.filter (fun b => f a b)).length)).sum
      = (B.map (fun b => (A.filter (fun a => f a b)).length)).sum := by
  induction A with
  | nil =>
      simp only [List.map_nil, List.sum_nil]
      induction B with
      | nil => rfl
      | cons b bs ihb => simpa using ihb
  | cons a as ih =>
      simp only [List.map_cons, List.sum_cons, ih]
      have h1 : (B.map (fun b => (List.filter (fun x => f x b) (a :: as)).length)).sum
          = (B.map (fun b => (if f a b then 1 else 0)
              + (List.filter (fun x => f x b) as).length)).sum := by
        apply congrArg
        apply List.map_congr_left
        intro b _
        rw [List.filter_cons]
        cases hb : f a b <;> simp [hb] <;> omega
      rw [h1, sum_map_add_distrib, sum_indicator_eq_filter_length]

theorem matchLoaded_length {α : Type} (link : List (Nat × Nat)) (loaded : List (Nat × α))
    (hcover : ∀ p ∈ loaded, ¬(link.filter (fun l => l.2 == p.1)).isEmpty) :
    (Match.matchLoaded link loaded).length
      = (loaded.map (fun p => (link.filter (fun l => l.2 == p.1)).length)).sum := by
  induction loaded with
  | nil => rfl
  | cons p rest ih =>
      rw [matchLoaded_cons, List.length_append,
        ih (fun q hq => hcover q (List.mem_cons_of_mem p hq))]
      rw [if_neg (hcover p (List.mem_cons_self p rest))]
      simp

/-- Counterexample to C5: with the observation-to-simulation mapping
sending observation 10 to flat index 7 and a loaded dataframe holding
only a row at flat index 8, Match.match produces a single row whose
index is NaN (none) — not one row per observation index re-indexed by
the observation index, since no output row carries index 10. -/
theorem claim_C5_counterexample :
    Match.matchLoaded [(10, 7)] [((8 : Nat), (1 : ℚ))] = [(none, 1)]
      ∧ (Match.matchLoaded [(10, 7)] [((8 : Nat), (1 : ℚ))]).map Prod.fst ≠ [some 10] :=
  ⟨rfl, by decide⟩

theorem sum_map_one {β : Type} (B : List β) : (B.map (fun _ => 1)).sum = B.length := by
  induction B with
  | nil => rfl
  | cons b bs ih => simp [ih]; omega

theorem matchLoaded_mem {α : Type} (link : List (Nat × Nat)) (l : Nat × Nat)
    (hl : l ∈ link) :
    ∀ (loaded : List (Nat × α)), ∀ p ∈ loaded, p.1 = l.2 →
      (some l.1, p.2) ∈ Match.matchLoaded link loaded := by
  intro loaded
  induction loaded with
  | nil => intro p hp; cases hp
  | cons q rest ih =>
      intro p hp he
      rw [matchLoaded_cons]
      rcases List.mem_cons.1 hp with h | h
      · have h1 : q.1 = p.1 := by rw [h]
        have hmem : l ∈ link.filter (fun m => m.2 == q.1) :=
          List.mem_filter.2 ⟨hl, by simp [h1, he]⟩
        rw [if_neg (by
          intro hemp
          rw [List.isEmpty_iff] at hemp
          rw [hemp] at hmem
          cases hmem)]
        refine List.mem_append_left _ ?_
        have h2 : q.2 = p.2 := by rw [h]
        rw [← h2]
        exact List.mem_map_of_mem _ hmem
      · exact List.mem_append_right _ (ih p h he)

theorem matchLoaded_no_none {α : Type} (link : List (Nat × Nat)) :
    ∀ (loaded : List (Nat × α)),
      (∀ p ∈ loaded, ¬(link.filter (fun m => m.2 == p.1)).isEmpty) →
      ∀ x ∈ Match.matchLoaded link loaded, x.1 ≠ none := by
  intro loaded
  induction loaded with
  | nil => intro _ x hx; cases hx
  | cons q rest ih =>
      intro hcov x hx
      rw [matchLoaded_cons] at hx
      rcases List.mem_append.1 hx with h | h
      · rw [if_neg (hcov q (List.mem_cons_self q rest))] at h
        rcases List.mem_map.1 h with ⟨m, _, he⟩
        rw [← he]
        simp
      · exact ih (fun q2 hq2 => hcov q2 (List.mem_cons_of_mem q hq2)) x h

/-- C5 (amended): when every loaded row's flat index was chosen by at
least one observation and every observation's chosen flat index occurs
exactly once among the loaded rows, Match.match produces exactly one
output row per observation (the output length equals the number of
observation-link entries and no output row has a null index), and every
observation receives a copy of the loaded row at its chosen flat index,
re-indexed by the observation index — so two observations choosing the
same flat index both receive that row (fan-out join, no reduction). If
a loaded row was chosen by no observation it yields an extra row with a
null index, and an observation whose chosen index is absent from the
loaded dataframe yields no row (the counterexample). -/
theorem claim_C5_match_amended {α : Type} (link : List (Nat × Nat))
    (loaded : List (Nat × α))
    (hcover : ∀ p ∈ loaded, ∃ l ∈ link, l.2 = p.1)
    (honce : ∀ l ∈ link, (loaded.filter (fun p => l.2 == p.1)).length = 1) :
    (Match.matchLoaded link loaded).length = link.length
      ∧ (∀ l ∈ link, ∀ p ∈ loaded, p.1 = l.2 →
          (some l.1, p.2) ∈ Match.matchLoaded link loaded)
      ∧ (∀ x ∈ Match.matchLoaded link loaded, x.1 ≠ none) := by
  have hcover2 : ∀ p ∈ loaded, ¬(link.filter (fun l => l.2 == p.1)).isEmpty := by
    intro p hp
    rcases hcover p hp with ⟨l, hl, he⟩
    have hmem : l ∈ link.filter (fun l => l.2 == p.1) :=
      List.mem_filter.2 ⟨hl, by simp [he]⟩
    intro hemp
    rw [List.isEmpty_iff] at hemp
    rw [hemp] at hmem
    cases hmem
  refine ⟨?_, ?_, ?_⟩
  · rw [matchLoaded_length link loaded hcover2,
      filter_length_swap (fun p l => l.2 == p.1) loaded link]
    have hone : (link.map (fun l => (loaded.filter (fun p => l.2 == p.1)).length)).sum
        = (link.map (fun _ => 1)).sum := by
      apply congrArg
      apply List.map_congr_left
      intro l hl
      exact honce l hl
    rw [hone, sum_map_one]
  · intro l hl p hp he
    exact matchLoaded_mem link l hl loaded p hp he
  · exact matchLoaded_no_none link loaded hcover2

/-- Witness for the amended C5: the fan-out scenario of property P7 —
observation indexes 10 and 11 both choose flat index 7, and the loaded
dataframe holds exactly one row at flat index 7; the output has two
rows, both copies of the loaded row, indexed by 10 and by 11, and no
null-index row. -/
theorem claim_C5_match_amended_witness :
    (Match.matchLoaded [(10, 7), (11, 7)] [((7 : Nat), (42 : ℚ))]).length = 2
      ∧ (some 10, (42 : ℚ)) ∈ Match.matchLoaded [(10, 7), (11, 7)] [((7 : Nat), (42 : ℚ))]
      ∧ (some 11, (42 : ℚ)) ∈ Match.matchLoaded [(10, 7), (11, 7)] [((7 : Nat), (42 : ℚ))]
      ∧ ∀ x ∈ Match.matchLoaded [(10, 7), (11, 7)] [((7 : Nat), (42 : ℚ))], x.1 ≠ none := by
  have h := claim_C5_match_amended [(10, 7), (11, 7)] [((7 : Nat), (42 : ℚ))]
    (by decide) (by decide)
  exact ⟨h.1,
    h.2.1 (10, 7) (by simp) ((7 : Nat), (42 : ℚ)) (by simp) rfl,
    h.2.1 (11, 7) (by simp) ((7 : Nat), (42 : ℚ)) (by simp) rfl,
    h.2.2⟩

/-! Helper lemmas about the multi-pass feature construction order. -/

theorem is_loadable_append (f : FeatureVar) (a b : List String)
    (h : f.is_loadable a = true) : f.is_loadable (a ++ b) = true := by
  simp only [FeatureVar.is_loadable, List.all_eq_true] at h ⊢
  intro n hn
  have := h n hn
  rw [List.contains_eq_any_beq] at this ⊢
  simp only [List.any_eq_true, beq_iff_eq] at this ⊢
  rcases this with ⟨m, hm, he⟩
  exact ⟨m, List.mem_append_left b hm, he⟩

theorem topoOrdered_of_all_loadable (cs : List FeatureVar) :
    ∀ (a : List String), (∀ f ∈ cs, f.is_loadable a = true) →
      topoOrdered a cs = true := by
  induction cs with
  | nil => intro a _; rfl
  | cons f rest ih =>
      intro a hall
      simp only [topoOrdered, Bool.and_eq_true]
      refine ⟨hall f (List.mem_cons_self f rest), ?_⟩
      exact ih (a ++ [f.name]) (fun g hg =>
        is_loadable_append g a [f.name] (hall g (List.mem_cons_of_mem f hg)))

theorem topoOrdered_append (acc : List FeatureVar) :
    ∀ (a : List String) (cs : List FeatureVar),
      topoOrdered a acc = true →
      (∀ f ∈ cs, f.is_loadable (a ++ acc.map (fun g => g.name)) = true) →
      topoOrdered a (acc ++ cs) = true := by
  induction acc with
  | nil =>
      intro a cs _ hcs
      simp only [List.nil_append]
      exact topoOrdered_of_all_loadable cs a (by simpa using hcs)
  | cons f acc2 ih =>
      intro a cs hacc hcs
      simp only [topoOrdered, Bool.and_eq_true, List.cons_append] at hacc ⊢
      refine ⟨hacc.1, ?_⟩
      refine ih (a ++ [f.name]) cs hacc.2 ?_
      intro g hg
      have := hcs g hg
      simp only [List.map_cons] at this
      have heq : a ++ f.name :: acc2.map (fun g2 => g2.name)
          = (a ++ [f.name]) ++ acc2.map (fun g2 => g2.name) := by
        simp
      rw [heq] at this
      exact this

theorem iterLoop_topoOrdered (fuel : Nat) :
    ∀ (features : List FeatureVar) (avail0 : List String)
      (acc L : List FeatureVar),
      topoOrdered avail0 acc = true →
      iterLoop fuel features (avail0 ++ acc.map (fun f => f.name)) acc = Except.ok L →
      topoOrdered avail0 L = true := by
  induction fuel with
  | zero =>
      intro features avail0 acc L hacc hrun
      simp only [iterLoop] at hrun
      split at hrun
      · cases hrun
        exact hacc
      · cases hrun
  | succ fuel ih =>
      intro features avail0 acc L hacc hrun
      simp only [iterLoop] at hrun
      split at hrun
      · split at hrun
        · cases hrun
          exact hacc
        · cases hrun
      · rename_i hne
        have hacc2 : topoOrdered avail0
            (acc ++ get_constructable_features features
              (avail0 ++ acc.map (fun f => f.name))) = true := by
          refine topoOrdered_append acc avail0 _ hacc ?_
          intro f hf
          exact (List.mem_filter.1 hf).2
        have hrw : (avail0 ++ acc.map (fun f => f.name))
              ++ (get_constructable_features features
                  (avail0 ++ acc.map (fun f => f.name))).map (fun f => f.name)
            = avail0 ++ (acc ++ get_constructable_features features
                (avail0 ++ acc.map (fun f => f.name))).map (fun f => f.name) := by
          simp [List.map_append, List.append_assoc]
        rw [hrw] at hrun
        exact ih _ avail0 _ L hacc2 hrun

/-- C4: the constructable-features iteration yields the derived
variables in dependency order — whenever it succeeds, every yielded
feature's required variable names are available at its position,
counting the initially available names and the names of the features
yielded before it (the topoOrdered predicate), so a feature depending on
another feature comes later; on the concrete instance with F1 requiring
raw variables A and B and F2 requiring F1 and C, the iteration over
available A, B, C yields F1 before F2 even though F2 is declared first;
and a two-feature cycle raises the feature-construction error. -/
theorem claim_C4_feature_dependency_order :
    (∀ (elements : List FeatureVar) (available_vars : List String)
        (L : List FeatureVar),
        iter_constructables_features elements available_vars = Except.ok L →
        topoOrdered available_vars L = true)
      ∧ iter_constructables_features [fF2, fF1] ["A", "B", "C"] = Except.ok [fF1, fF2]
      ∧ iter_constructables_features [gF2, gF3] ["A"] = Except.error () := by
  refine ⟨?_, by rfl, by rfl⟩
  intro elements available_vars L hrun
  have h0 : available_vars ++ ([] : List FeatureVar).map (fun f => f.name)
      = available_vars := by simp
  refine iterLoop_topoOrdered (elements.length + 1) elements available_vars [] L rfl ?_
  rw [h0]
  exact hrun

/-- Witness for C4: the successful concrete iteration (F2 declared
first but requiring F1) is indeed yielded in dependency order over the
available raw variables A, B, C. -/
theorem claim_C4_feature_dependency_order_witness :
    topoOrdered ["A", "B", "C"] [fF1, fF2] = true :=
  claim_C4_feature_dependency_order.1 [fF2, fF1] ["A", "B", "C"] [fF1, fF2] (by rfl)

/-- C8: adding two Storers with equal variable sets (the VariableSet
equality of the source compares lengths, name keys and per-name reprs)
and equal categories yields a Storer whose row count is the sum of the
two row counts and whose provider list is the duplicate-free union of
the two provider lists; differing variable sets raise the variable-set
incompatibility error (checked first), and differing categories with
equal variable sets raise the category incompatibility error. -/
theorem claim_C8_storer_addition (s o : Storer) :
    (varSetEq s.variables o.variables = true → s.category = o.category →
        ∃ r, s.add o = Except.ok r
          ∧ r.data.length = s.data.length + o.data.length
          ∧ r.providers.Nodup
          ∧ ∀ p, p ∈ r.providers ↔ p ∈ s.providers ∨ p ∈ o.providers)
      ∧ (varSetEq s.variables o.variables = false →
          s.add o = Except.error StorerAddError.incompatibleVariableSets)
      ∧ (varSetEq s.variables o.variables = true → s.category ≠ o.category →
          s.add o = Except.error StorerAddError.incompatibleCategories) := by
  refine ⟨?_, ?_, ?_⟩
  · intro hvar hcat
    refine ⟨⟨s.data ++ o.data, s.category, (s.providers ++ o.providers).dedup,
      s.variables⟩, ?_, ?_, ?_, ?_⟩
    · simp only [Storer.add, hvar, Bool.not_true, Bool.false_eq_true, if_false]
      rw [if_neg (by simp [hcat])]
    · simp
    · exact List.nodup_dedup _
    · intro p
      rw [List.mem_dedup, List.mem_append]
  · intro hvar
    simp only [Storer.add, hvar, Bool.not_false, if_true]
  · intro hvar hcat
    simp only [Storer.add, hvar, Bool.not_true, Bool.false_eq_true, if_false]
    rw [if_pos hcat]

/-- Witness for C8: two concrete one- and two-row storers with the same
single-variable set and in_situ category, with overlapping provider
lists: the sum has three rows and the providers are exactly argo and
imr, without duplicates. -/
theorem claim_C8_storer_addition_witness :
    ∃ r, stW1.add stW2 = Except.ok r
      ∧ r.data.length = stW1.data.length + stW2.data.length
      ∧ r.providers.Nodup
      ∧ ∀ p, p ∈ r.providers ↔ p ∈ stW1.providers ∨ p ∈ stW2.providers :=
  (claim_C8_storer_addition stW1 stW2).1 (by decide) rfl

/-- C10: when no simulation file's parsed date equals the date of any
reference observation row, every file's reference slice is empty, so
every file is skipped, nothing is accumulated, and load_all fails with
the ValueError that pd.concat raises on an empty list of dataframes —
instead of returning an empty Storer. -/
theorem claim_C10_load_all_no_match_error {α : Type}
    (loadMatch : ℤ → List RefRow → List α)
    (filepathDates : List ℤ) (reference : List RefRow)
    (h : ∀ d ∈ filepathDates, ∀ r ∈ reference, r.date ≠ d) :
    SelectiveDataSource.load_all loadMatch filepathDates reference
      = Except.error "ValueError: No objects to concatenate" := by
  have hempty : filepathDates.foldr
      (fun d acc =>
        let data_slice := reference.filter (fun r => r.date == d)
        if data_slice.isEmpty then acc else loadMatch d data_slice :: acc)
      [] = [] := by
    induction filepathDates with
    | nil => rfl
    | cons d rest ih =>
        simp only [List.foldr_cons]
        have hslice : reference.filter (fun r => r.date == d) = [] := by
          rw [List.filter_eq_nil_iff]
          intro r hr
          simp only [beq_iff_eq]
          exact h d (List.mem_cons_self d rest) r hr
        rw [hslice]
        simp only [List.isEmpty_nil, if_true]
        exact ih (fun d2 hd2 => h d2 (List.mem_cons_of_mem d hd2))
  simp only [SelectiveDataSource.load_all, hempty]
  rfl

/-- Witness for C10: two concrete simulation files dated 5 and 6 and a
single reference row dated 9 — no date matches, and load_all returns
the pd.concat ValueError. -/
theorem claim_C10_load_all_no_match_error_witness :
    SelectiveDataSource.load_all
        (fun d s => s.map (fun r => (r.idx, d))) [5, 6] [⟨0, 9⟩]
      = Except.error "ValueError: No objects to concatenate" :=
  claim_C10_load_all_no_match_error
    (fun d s => s.map (fun r => (r.idx, d))) [5, 6] [⟨0, 9⟩] (by decide)

end BGC
